import Mathlib

/-!
# Verification of the multislice ptychography reconstruction code

Shallow embedding, in Lean 4 over Mathlib, of the functions of
`interpolation.py`, `tensorflow_recon/util.py` and
`tensorflow_recon/ptychography.py` that the specification's claims are
about, together with proofs (or refutations) of those claims.

Floating-point arithmetic is idealised as exact arithmetic over a linear
ordered field (instantiated at `ℝ` or `ℚ` as appropriate); tensors are
idealised as total functions from their index space.
-/

namespace TfRecon

/-! ## `util.fftshift` / `util.ifftshift`

`util.py` lines 250-283.  A tensor of rank `d` with dimension sizes
`sh : Fin d → ℕ` is a function from its index space.  Both functions loop
over the axes; along axis `i` they split the tensor at position `p2`
(`tf.slice`) and swap the two pieces (`tf.concat`), with
`p2 = (n+1) / 2` for `fftshift` and `p2 = n - (n+1) / 2` for `ifftshift`.
-/

/-- Tensors of rank `d` with dimension sizes `sh`, idealised as total
functions on their index space. -/
def Tensor (d : ℕ) (sh : Fin d → ℕ) (α : Type) : Type :=
  ((i : Fin d) → Fin (sh i)) → α

/-- The index map realising `tf.concat([t[p2:], t[:p2]], axis)` along one
axis: output position `j` reads input position `j + p2` when that is in
range, and wraps past the end otherwise. -/
def sliceConcatIdx {n : ℕ} (p2 : ℕ) (j : Fin n) : Fin n :=
  if h : j.val + p2 < n then ⟨j.val + p2, h⟩
  else ⟨(j.val + p2 - n) % n, Nat.mod_lt _ j.pos⟩

/-- One pass of the `fftshift`/`ifftshift` loop body: slice the tensor at
`p2` along axis `ax` and concatenate the two pieces in swapped order. -/
def shiftAxis {d : ℕ} {sh : Fin d → ℕ} {α : Type}
    (t : Tensor d sh α) (ax : Fin d) (p2 : ℕ) : Tensor d sh α :=
  fun idx => t (Function.update idx ax (sliceConcatIdx p2 (idx ax)))

/-- `util.fftshift` (lines 250-265): for every axis `i`, swap the two
pieces split at `p2 = (n i + 1) / 2`. -/
def fftshift {d : ℕ} {sh : Fin d → ℕ} {α : Type}
    (t : Tensor d sh α) : Tensor d sh α :=
  (List.finRange d).foldl (fun acc i => shiftAxis acc i ((sh i + 1) / 2)) t

/-- `util.ifftshift` (lines 268-283): for every axis `i`, swap the two
pieces split at `p2 = n i - (n i + 1) / 2`. -/
def ifftshift {d : ℕ} {sh : Fin d → ℕ} {α : Type}
    (t : Tensor d sh α) : Tensor d sh α :=
  (List.finRange d).foldl (fun acc i => shiftAxis acc i (sh i - (sh i + 1) / 2)) t

lemma sliceConcatIdx_val {n : ℕ} (p : ℕ) (j : Fin n) :
    (sliceConcatIdx p j).val = (j.val + p) % n := by
  have hj := j.isLt
  by_cases h : j.val + p < n
  · rw [sliceConcatIdx, dif_pos h]
    exact (Nat.mod_eq_of_lt h).symm
  · have h2 : n ≤ j.val + p := le_of_not_lt h
    rw [sliceConcatIdx, dif_neg h]
    show (j.val + p - n) % n = (j.val + p) % n
    rw [Nat.mod_eq_sub_mod h2]

lemma sliceConcatIdx_sliceConcatIdx {n : ℕ} (p q : ℕ) (hpq : p + q = n) (j : Fin n) :
    sliceConcatIdx p (sliceConcatIdx q j) = j := by
  have hj := j.isLt
  apply Fin.ext
  rw [sliceConcatIdx_val, sliceConcatIdx_val, Nat.mod_add_mod]
  have : j.val + q + p = j.val + n := by omega
  rw [this, Nat.add_mod_right, Nat.mod_eq_of_lt hj]

lemma foldl_shiftAxis_eq {d : ℕ} {sh : Fin d → ℕ} {α : Type}
    (p : Fin d → ℕ) (l : List (Fin d)) (hl : l.Nodup) (t : Tensor d sh α) :
    l.foldl (fun acc i => shiftAxis acc i (p i)) t =
      fun idx => t (fun i => if i ∈ l then sliceConcatIdx (p i) (idx i) else idx i) := by
  induction l generalizing t with
  | nil => funext idx; simp
  | cons ax l ih =>
    have hax : ax ∉ l := (List.nodup_cons.mp hl).1
    have htl : l.Nodup := (List.nodup_cons.mp hl).2
    simp only [List.foldl_cons]
    rw [ih htl]
    funext idx
    simp only [shiftAxis]
    congr 1
    funext i
    by_cases hi : i = ax
    · subst hi
      simp only [Function.update_same, List.mem_cons, true_or, if_pos]
      rw [if_neg (by exact fun h => hax h)]
    · rw [Function.update_noteq hi]
      by_cases hmem : i ∈ l
      · simp [hmem, hi]
      · simp [hmem, hi]

lemma fftshift_apply {d : ℕ} {sh : Fin d → ℕ} {α : Type} (t : Tensor d sh α)
    (idx : (i : Fin d) → Fin (sh i)) :
    fftshift t idx = t (fun i => sliceConcatIdx ((sh i + 1) / 2) (idx i)) := by
  rw [fftshift, foldl_shiftAxis_eq _ _ (List.nodup_finRange d)]
  simp [List.mem_finRange]

lemma ifftshift_apply {d : ℕ} {sh : Fin d → ℕ} {α : Type} (t : Tensor d sh α)
    (idx : (i : Fin d) → Fin (sh i)) :
    ifftshift t idx = t (fun i => sliceConcatIdx (sh i - (sh i + 1) / 2) (idx i)) := by
  rw [ifftshift, foldl_shiftAxis_eq _ _ (List.nodup_finRange d)]
  simp [List.mem_finRange]

/-- **C10.** For every tensor of any rank and any dimension sizes (even or
odd), the custom `fftshift` and `ifftshift` of `util.py` are mutual
inverses: `ifftshift (fftshift t) = t` and `fftshift (ifftshift t) = t`. -/
theorem fftshift_ifftshift_inverse {d : ℕ} {sh : Fin d → ℕ} {α : Type}
    (t : Tensor d sh α) :
    ifftshift (fftshift t) = t ∧ fftshift (ifftshift t) = t := by
  constructor
  · funext idx
    rw [ifftshift_apply, fftshift_apply]
    congr 1
    funext i
    have hpos : 0 < sh i := (idx i).pos
    exact sliceConcatIdx_sliceConcatIdx _ _ (by omega) (idx i)
  · funext idx
    rw [fftshift_apply, ifftshift_apply]
    congr 1
    funext i
    have hpos : 0 < sh i := (idx i).pos
    exact sliceConcatIdx_sliceConcatIdx _ _ (by omega) (idx i)

/-! ## `interpolation.biliniear_interpolation_3d`

`interpolation.py` lines 4-57, embedded per query point (the source is
vectorised over a batch of points; each point's computation is
independent).  The 3D field is idealised as a total function on `ℤ³`
whose relevant values live in `[0,n0) × [0,n1) × [0,n2)`; float
arithmetic is idealised as arithmetic in a linear ordered field `K`
with a floor function. -/

section Interpolation

variable {K : Type} [LinearOrderedField K] [FloorRing K]

/-- Index map of `tf.pad(data, [[1,1],[1,1],[1,1]], mode='SYMMETRIC')`
along one axis: the padded array of length `n + 2` mirrors one voxel at
each boundary, so padded index `0` reads original index `0`, padded
index `n + 1` reads original index `n - 1`, and padded index `i` in
between reads original index `i - 1`. -/
def padIdx (n : ℕ) (i : ℤ) : ℤ :=
  if i = 0 then 0 else if i = (n : ℤ) + 1 then (n : ℤ) - 1 else i - 1

/-- The symmetrically padded field of line 12, as a function of padded
indices. -/
def paddedData (n0 n1 n2 : ℕ) (data : ℤ → ℤ → ℤ → K) (i j k : ℤ) : K :=
  data (padIdx n0 i) (padIdx n1 j) (padIdx n2 k)

/-- x-offset (0 or 1) of the `r`-th corner, corners enumerated in the
source order c000, c100, c010, c110, c001, c101, c011, c111. -/
def xbit (r : Fin 8) : ℕ := r.val % 2

/-- y-offset (0 or 1) of the `r`-th corner. -/
def ybit (r : Fin 8) : ℕ := r.val / 2 % 2

/-- z-offset (0 or 1) of the `r`-th corner. -/
def zbit (r : Fin 8) : ℕ := r.val / 4

/-- One row of the 8×8 design matrix `h` (lines 38-45): the trilinear
monomial basis `(1, x, y, z, xy, xz, yz, xyz)` evaluated at a corner. -/
def monoRow (x y z : K) : Fin 8 → K :=
  ![1, x, y, z, x * y, x * z, y * z, x * y * z]

/-- The design matrix `h` of lines 38-47: rows `h1 … h8` are the
monomial basis evaluated at the eight corners, with `x1 = x0 + 1`,
`y1 = y0 + 1`, `z1 = z0 + 1` (consecutive integer lattice corners). -/
def hmat (x0 y0 z0 : K) : Matrix (Fin 8) (Fin 8) K :=
  Matrix.of ![monoRow x0 y0 z0,
              monoRow (x0 + 1) y0 z0,
              monoRow x0 (y0 + 1) z0,
              monoRow (x0 + 1) (y0 + 1) z0,
              monoRow x0 y0 (z0 + 1),
              monoRow (x0 + 1) y0 (z0 + 1),
              monoRow x0 (y0 + 1) (z0 + 1),
              monoRow (x0 + 1) (y0 + 1) (z0 + 1)]

/-- `tf.matrix_inverse`, idealised as the exact inverse
`det⁻¹ • adjugate` (which agrees with Mathlib's nonsingular inverse
over a field). -/
def matrixInverse (A : Matrix (Fin 8) (Fin 8) K) : Matrix (Fin 8) (Fin 8) K :=
  A.det⁻¹ • A.adjugate

/-- `i000 = tf.cast(tf.floor(warp), int32)` after the one-voxel shift
`warp = warp + 1` of line 13, for one coordinate. -/
def i000 (w : K) : ℤ := ⌊w + 1⌋

/-- The gathered corner values `c000 … c111` of lines 22-29: the padded
field at `i000` plus the corner offset. -/
def cornerValues (n0 n1 n2 : ℕ) (data : ℤ → ℤ → ℤ → K) (w0 w1 w2 : K) :
    Fin 8 → K :=
  fun r => paddedData n0 n1 n2 data
    (i000 w0 + (xbit r : ℤ)) (i000 w1 + (ybit r : ℤ)) (i000 w2 + (zbit r : ℤ))

/-- `biliniear_interpolation_3d` of `interpolation.py` for one query
point `(w0, w1, w2)`: pad the field symmetrically by one voxel, shift
the query by one, gather the eight neighbouring corner values, solve
the 8×8 trilinear system `h a = c` by matrix inversion (line 50), and
evaluate the fitted polynomial at the shifted query point
(lines 55-56). -/
def biliniear_interpolation_3d (n0 n1 n2 : ℕ) (data : ℤ → ℤ → ℤ → K)
    (w0 w1 w2 : K) : K :=
  let x : K := w0 + 1
  let y : K := w1 + 1
  let z : K := w2 + 1
  let x0 : K := (i000 w0 : ℤ)
  let y0 : K := (i000 w1 : ℤ)
  let z0 : K := (i000 w2 : ℤ)
  let h := hmat x0 y0 z0
  let c := cornerValues n0 n1 n2 data w0 w1 w2
  let a := (matrixInverse h).mulVec c
  a 0 + a 1 * x + a 2 * y + a 3 * z +
    a 4 * (x * y) + a 5 * (x * z) + a 6 * (y * z) + a 7 * (x * y * z)

/-- The trilinear polynomial `a0 + a1 x + a2 y + a3 z + a4 xy + a5 xz +
a6 yz + a7 xyz` of the claim (and of lines 55-56). -/
def trilinearPoly (a : Fin 8 → K) (x y z : K) : K :=
  a 0 + a 1 * x + a 2 * y + a 3 * z +
    a 4 * (x * y) + a 5 * (x * z) + a 6 * (y * z) + a 7 * (x * y * z)

/-- Explicit inverse of the design matrix `hmat`: column `j` holds the
monomial coefficients of the trilinear Lagrange basis function of
corner `j` (the unique trilinear polynomial that is 1 at corner `j` and
0 at the other seven corners).  Proof device only. -/
def lagrangeB (p q r : K) : Matrix (Fin 8) (Fin 8) K :=
  Matrix.of
    ![![(p+1)*(q+1)*(r+1), -(p*(q+1)*(r+1)), -((p+1)*q*(r+1)), p*q*(r+1),
        -((p+1)*(q+1)*r), p*(q+1)*r, (p+1)*q*r, -(p*q*r)],
      ![-((q+1)*(r+1)), (q+1)*(r+1), q*(r+1), -(q*(r+1)),
        (q+1)*r, -((q+1)*r), -(q*r), q*r],
      ![-((p+1)*(r+1)), p*(r+1), (p+1)*(r+1), -(p*(r+1)),
        (p+1)*r, -(p*r), -((p+1)*r), p*r],
      ![-((p+1)*(q+1)), p*(q+1), (p+1)*q, -(p*q),
        (p+1)*(q+1), -(p*(q+1)), -((p+1)*q), p*q],
      ![r+1, -(r+1), -(r+1), r+1, -r, r, r, -r],
      ![q+1, -(q+1), -q, q, -(q+1), q+1, q, -q],
      ![p+1, -p, -(p+1), p, -(p+1), p, p+1, -p],
      ![-1, 1, 1, -1, 1, -1, -1, 1]]

lemma vec8_0 {α : Type} (a0 a1 a2 a3 a4 a5 a6 a7 : α) :
    ![a0, a1, a2, a3, a4, a5, a6, a7] (0 : Fin 8) = a0 := rfl

lemma vec8_1 {α : Type} (a0 a1 a2 a3 a4 a5 a6 a7 : α) :
    ![a0, a1, a2, a3, a4, a5, a6, a7] (1 : Fin 8) = a1 := rfl

lemma vec8_2 {α : Type} (a0 a1 a2 a3 a4 a5 a6 a7 : α) :
    ![a0, a1, a2, a3, a4, a5, a6, a7] (2 : Fin 8) = a2 := rfl

lemma vec8_3 {α : Type} (a0 a1 a2 a3 a4 a5 a6 a7 : α) :
    ![a0, a1, a2, a3, a4, a5, a6, a7] (3 : Fin 8) = a3 := rfl

lemma vec8_4 {α : Type} (a0 a1 a2 a3 a4 a5 a6 a7 : α) :
    ![a0, a1, a2, a3, a4, a5, a6, a7] (4 : Fin 8) = a4 := rfl

lemma vec8_5 {α : Type} (a0 a1 a2 a3 a4 a5 a6 a7 : α) :
    ![a0, a1, a2, a3, a4, a5, a6, a7] (5 : Fin 8) = a5 := rfl

lemma vec8_6 {α : Type} (a0 a1 a2 a3 a4 a5 a6 a7 : α) :
    ![a0, a1, a2, a3, a4, a5, a6, a7] (6 : Fin 8) = a6 := rfl

lemma vec8_7 {α : Type} (a0 a1 a2 a3 a4 a5 a6 a7 : α) :
    ![a0, a1, a2, a3, a4, a5, a6, a7] (7 : Fin 8) = a7 := rfl

lemma vec8_mk0 {α : Type} (h : (0:ℕ) < 8) (a0 a1 a2 a3 a4 a5 a6 a7 : α) :
    ![a0, a1, a2, a3, a4, a5, a6, a7] (⟨0, h⟩ : Fin 8) = a0 := rfl

lemma vec8_mk1 {α : Type} (h : (1:ℕ) < 8) (a0 a1 a2 a3 a4 a5 a6 a7 : α) :
    ![a0, a1, a2, a3, a4, a5, a6, a7] (⟨1, h⟩ : Fin 8) = a1 := rfl

lemma vec8_mk2 {α : Type} (h : (2:ℕ) < 8) (a0 a1 a2 a3 a4 a5 a6 a7 : α) :
    ![a0, a1, a2, a3, a4, a5, a6, a7] (⟨2, h⟩ : Fin 8) = a2 := rfl

lemma vec8_mk3 {α : Type} (h : (3:ℕ) < 8) (a0 a1 a2 a3 a4 a5 a6 a7 : α) :
    ![a0, a1, a2, a3, a4, a5, a6, a7] (⟨3, h⟩ : Fin 8) = a3 := rfl

lemma vec8_mk4 {α : Type} (h : (4:ℕ) < 8) (a0 a1 a2 a3 a4 a5 a6 a7 : α) :
    ![a0, a1, a2, a3, a4, a5, a6, a7] (⟨4, h⟩ : Fin 8) = a4 := rfl

lemma vec8_mk5 {α : Type} (h : (5:ℕ) < 8) (a0 a1 a2 a3 a4 a5 a6 a7 : α) :
    ![a0, a1, a2, a3, a4, a5, a6, a7] (⟨5, h⟩ : Fin 8) = a5 := rfl

lemma vec8_mk6 {α : Type} (h : (6:ℕ) < 8) (a0 a1 a2 a3 a4 a5 a6 a7 : α) :
    ![a0, a1, a2, a3, a4, a5, a6, a7] (⟨6, h⟩ : Fin 8) = a6 := rfl

lemma vec8_mk7 {α : Type} (h : (7:ℕ) < 8) (a0 a1 a2 a3 a4 a5 a6 a7 : α) :
    ![a0, a1, a2, a3, a4, a5, a6, a7] (⟨7, h⟩ : Fin 8) = a7 := rfl

set_option maxHeartbeats 3200000 in
lemma hmat_mul_lagrangeB (p q r : K) : hmat p q r * lagrangeB p q r = 1 := by
  ext i j
  fin_cases i <;> fin_cases j <;>
    (simp only [hmat, lagrangeB, monoRow, Matrix.mul_apply, Matrix.of_apply,
       Fin.sum_univ_eight, vec8_0, vec8_1, vec8_2, vec8_3, vec8_4, vec8_5,
       vec8_6, vec8_7, vec8_mk0, vec8_mk1, vec8_mk2, vec8_mk3, vec8_mk4,
       vec8_mk5, vec8_mk6, vec8_mk7, Matrix.one_apply, Fin.mk.injEq]
     norm_num
     try ring1)

lemma isUnit_hmat_det (p q r : K) : IsUnit (hmat p q r).det :=
  Matrix.isUnit_det_of_right_inverse (hmat_mul_lagrangeB p q r)

lemma hmat_inv_eq (p q r : K) : (hmat p q r)⁻¹ = lagrangeB p q r :=
  Matrix.inv_eq_right_inv (hmat_mul_lagrangeB p q r)

lemma matrixInverse_eq_inv (A : Matrix (Fin 8) (Fin 8) K) :
    matrixInverse A = A⁻¹ := by
  rw [matrixInverse, Matrix.inv_def, Ring.inverse_eq_inv]

lemma matrixInverse_hmat (p q r : K) :
    matrixInverse (hmat p q r) = lagrangeB p q r := by
  rw [matrixInverse_eq_inv, hmat_inv_eq]

/-- The trilinear Lagrange interpolation form: the unique trilinear fit
through the eight corner values, written as the corner values weighted
by the Lagrange basis functions at the (shifted) query point. -/
def lagrangeCombo (p q r x y z : K) (c : Fin 8 → K) : K :=
  (p + 1 - x) * (q + 1 - y) * (r + 1 - z) * c 0 +
  (x - p) * (q + 1 - y) * (r + 1 - z) * c 1 +
  (p + 1 - x) * (y - q) * (r + 1 - z) * c 2 +
  (x - p) * (y - q) * (r + 1 - z) * c 3 +
  (p + 1 - x) * (q + 1 - y) * (z - r) * c 4 +
  (x - p) * (q + 1 - y) * (z - r) * c 5 +
  (p + 1 - x) * (y - q) * (z - r) * c 6 +
  (x - p) * (y - q) * (z - r) * c 7

set_option maxHeartbeats 1600000 in
lemma biliniear_eq_lagrangeCombo (n0 n1 n2 : ℕ) (data : ℤ → ℤ → ℤ → K)
    (w0 w1 w2 : K) :
    biliniear_interpolation_3d n0 n1 n2 data w0 w1 w2 =
      lagrangeCombo ((i000 w0 : ℤ) : K) ((i000 w1 : ℤ) : K) ((i000 w2 : ℤ) : K)
        (w0 + 1) (w1 + 1) (w2 + 1) (cornerValues n0 n1 n2 data w0 w1 w2) := by
  rw [biliniear_interpolation_3d, matrixInverse_hmat]
  simp only [Matrix.mulVec, Matrix.dotProduct, lagrangeB, Matrix.of_apply,
    Fin.sum_univ_eight, vec8_0, vec8_1, vec8_2, vec8_3, vec8_4, vec8_5,
    vec8_6, vec8_7, lagrangeCombo]
  ring

lemma xbit_values :
    xbit 0 = 0 ∧ xbit 1 = 1 ∧ xbit 2 = 0 ∧ xbit 3 = 1 ∧
    xbit 4 = 0 ∧ xbit 5 = 1 ∧ xbit 6 = 0 ∧ xbit 7 = 1 := by decide

lemma ybit_values :
    ybit 0 = 0 ∧ ybit 1 = 0 ∧ ybit 2 = 1 ∧ ybit 3 = 1 ∧
    ybit 4 = 0 ∧ ybit 5 = 0 ∧ ybit 6 = 1 ∧ ybit 7 = 1 := by decide

lemma zbit_values :
    zbit 0 = 0 ∧ zbit 1 = 0 ∧ zbit 2 = 0 ∧ zbit 3 = 0 ∧
    zbit 4 = 1 ∧ zbit 5 = 1 ∧ zbit 6 = 1 ∧ zbit 7 = 1 := by decide

lemma cornerValues_explicit (n0 n1 n2 : ℕ) (data : ℤ → ℤ → ℤ → K)
    (w0 w1 w2 : K) :
    cornerValues n0 n1 n2 data w0 w1 w2 0 =
        paddedData n0 n1 n2 data (i000 w0) (i000 w1) (i000 w2) ∧
      cornerValues n0 n1 n2 data w0 w1 w2 1 =
        paddedData n0 n1 n2 data (i000 w0 + 1) (i000 w1) (i000 w2) ∧
      cornerValues n0 n1 n2 data w0 w1 w2 2 =
        paddedData n0 n1 n2 data (i000 w0) (i000 w1 + 1) (i000 w2) ∧
      cornerValues n0 n1 n2 data w0 w1 w2 3 =
        paddedData n0 n1 n2 data (i000 w0 + 1) (i000 w1 + 1) (i000 w2) ∧
      cornerValues n0 n1 n2 data w0 w1 w2 4 =
        paddedData n0 n1 n2 data (i000 w0) (i000 w1) (i000 w2 + 1) ∧
      cornerValues n0 n1 n2 data w0 w1 w2 5 =
        paddedData n0 n1 n2 data (i000 w0 + 1) (i000 w1) (i000 w2 + 1) ∧
      cornerValues n0 n1 n2 data w0 w1 w2 6 =
        paddedData n0 n1 n2 data (i000 w0) (i000 w1 + 1) (i000 w2 + 1) ∧
      cornerValues n0 n1 n2 data w0 w1 w2 7 =
        paddedData n0 n1 n2 data (i000 w0 + 1) (i000 w1 + 1) (i000 w2 + 1) := by
  refine ⟨?_, ?_, ?_, ?_, ?_, ?_, ?_, ?_⟩ <;>
    norm_num [cornerValues, xbit_values.1, xbit_values.2.1, xbit_values.2.2.1,
      xbit_values.2.2.2.1, xbit_values.2.2.2.2.1, xbit_values.2.2.2.2.2.1,
      xbit_values.2.2.2.2.2.2.1, xbit_values.2.2.2.2.2.2.2,
      ybit_values.1, ybit_values.2.1, ybit_values.2.2.1,
      ybit_values.2.2.2.1, ybit_values.2.2.2.2.1, ybit_values.2.2.2.2.2.1,
      ybit_values.2.2.2.2.2.2.1, ybit_values.2.2.2.2.2.2.2,
      zbit_values.1, zbit_values.2.1, zbit_values.2.2.1,
      zbit_values.2.2.2.1, zbit_values.2.2.2.2.1, zbit_values.2.2.2.2.2.1,
      zbit_values.2.2.2.2.2.2.1, zbit_values.2.2.2.2.2.2.2]

/-- One-dimensional step of the exactness argument: against a field `F`
that agrees with an affine function on `[0, n)`, the linear blend of the
two padded neighbours of an in-range coordinate `w` reproduces the
affine function at `w`.  The boundary case `w = n - 1` works because the
blend weight of the (mirrored) right neighbour is then zero. -/
lemma interp1d (n : ℕ) (w : K) (F : ℤ → K) (al be : K)
    (hF : ∀ m : ℤ, 0 ≤ m → m < (n : ℤ) → F m = al + be * (m : K))
    (hw0 : 0 ≤ w) (hbd : w < (n : K) - 1 ∨ w = (n : K) - 1) :
    (((i000 w : ℤ) : K) + 1 - (w + 1)) * F (padIdx n (i000 w)) +
      ((w + 1) - ((i000 w : ℤ) : K)) * F (padIdx n (i000 w + 1)) =
      al + be * w := by
  simp only [i000]
  rcases hbd with hlt | heq
  · have h1 : (1 : ℤ) ≤ ⌊w + 1⌋ := by
      apply Int.le_floor.mpr
      push_cast
      linarith
    have h2 : ⌊w + 1⌋ < (n : ℤ) := Int.floor_lt.mpr (by push_cast; linarith)
    have e1 : padIdx n ⌊w + 1⌋ = ⌊w + 1⌋ - 1 := by
      unfold padIdx
      split_ifs <;> omega
    have e2 : padIdx n (⌊w + 1⌋ + 1) = ⌊w + 1⌋ := by
      unfold padIdx
      split_ifs <;> omega
    rw [e1, e2, hF _ (by omega) (by omega), hF _ (by omega) (by omega)]
    have hle : ((⌊w + 1⌋ : ℤ) : K) ≤ w + 1 := Int.floor_le _
    have hgt : w + 1 < ((⌊w + 1⌋ : ℤ) : K) + 1 := Int.lt_floor_add_one _
    push_cast
    ring
  · have hn1 : (1 : K) ≤ (n : K) := by linarith
    have hnn : 1 ≤ n := by exact_mod_cast hn1
    have hw1 : w + 1 = (n : K) := by rw [heq]; ring
    have hfl : ⌊w + 1⌋ = (n : ℤ) := by
      rw [hw1]
      exact_mod_cast Int.floor_natCast n
    have e1 : padIdx n (n : ℤ) = (n : ℤ) - 1 := by
      unfold padIdx
      split_ifs <;> omega
    have e2 : padIdx n ((n : ℤ) + 1) = (n : ℤ) - 1 := by
      unfold padIdx
      split_ifs <;> omega
    rw [hfl, e1, e2, hF _ (by omega) (by omega), hw1, heq]
    push_cast
    ring

lemma interp_at_lattice (n0 n1 n2 : ℕ) (data : ℤ → ℤ → ℤ → K)
    (m0 m1 m2 : ℤ)
    (h0l : 0 ≤ m0) (h0r : m0 < (n0 : ℤ)) (h1l : 0 ≤ m1) (h1r : m1 < (n1 : ℤ))
    (h2l : 0 ≤ m2) (h2r : m2 < (n2 : ℤ)) :
    biliniear_interpolation_3d n0 n1 n2 data
      ((m0 : ℤ) : K) ((m1 : ℤ) : K) ((m2 : ℤ) : K) = data m0 m1 m2 := by
  rw [biliniear_eq_lagrangeCombo]
  have hfl0 : i000 ((m0 : ℤ) : K) = m0 + 1 := by
    unfold i000
    rw [show ((m0 : ℤ) : K) + 1 = (((m0 + 1 : ℤ) : K)) by push_cast; ring,
      Int.floor_intCast]
  have hfl1 : i000 ((m1 : ℤ) : K) = m1 + 1 := by
    unfold i000
    rw [show ((m1 : ℤ) : K) + 1 = (((m1 + 1 : ℤ) : K)) by push_cast; ring,
      Int.floor_intCast]
  have hfl2 : i000 ((m2 : ℤ) : K) = m2 + 1 := by
    unfold i000
    rw [show ((m2 : ℤ) : K) + 1 = (((m2 + 1 : ℤ) : K)) by push_cast; ring,
      Int.floor_intCast]
  have hc0 := (cornerValues_explicit n0 n1 n2 data
    ((m0 : ℤ) : K) ((m1 : ℤ) : K) ((m2 : ℤ) : K)).1
  have e0 : padIdx n0 (m0 + 1) = m0 := by
    unfold padIdx
    split_ifs <;> omega
  have e1 : padIdx n1 (m1 + 1) = m1 := by
    unfold padIdx
    split_ifs <;> omega
  have e2 : padIdx n2 (m2 + 1) = m2 := by
    unfold padIdx
    split_ifs <;> omega
  rw [hfl0, hfl1, hfl2] at hc0 ⊢
  rw [paddedData, e0, e1, e2] at hc0
  rw [lagrangeCombo, hc0]
  push_cast
  ring

set_option maxHeartbeats 3200000 in
lemma interp_trilinear_exact (n0 n1 n2 : ℕ) (data : ℤ → ℤ → ℤ → K)
    (a : Fin 8 → K)
    (hdata : ∀ i j k : ℤ, 0 ≤ i → i < (n0 : ℤ) → 0 ≤ j → j < (n1 : ℤ) →
      0 ≤ k → k < (n2 : ℤ) →
      data i j k = trilinearPoly a (i : K) (j : K) (k : K))
    (w0 w1 w2 : K)
    (hw0l : 0 ≤ w0) (hw0r : w0 < (n0 : K) - 1 ∨ w0 = (n0 : K) - 1)
    (hw1l : 0 ≤ w1) (hw1r : w1 < (n1 : K) - 1 ∨ w1 = (n1 : K) - 1)
    (hw2l : 0 ≤ w2) (hw2r : w2 < (n2 : K) - 1 ∨ w2 = (n2 : K) - 1) :
    biliniear_interpolation_3d n0 n1 n2 data w0 w1 w2 =
      trilinearPoly a w0 w1 w2 := by
  have hn0K : (1 : K) ≤ (n0 : K) := by rcases hw0r with h | h <;> linarith
  have hn1K : (1 : K) ≤ (n1 : K) := by rcases hw1r with h | h <;> linarith
  have hn2K : (1 : K) ≤ (n2 : K) := by rcases hw2r with h | h <;> linarith
  have hn0 : 1 ≤ n0 := by exact_mod_cast hn0K
  have hn1 : 1 ≤ n1 := by exact_mod_cast hn1K
  have hn2 : 1 ≤ n2 := by exact_mod_cast hn2K
  have hP0a : (1 : ℤ) ≤ i000 w0 := by
    rw [i000]
    exact Int.le_floor.mpr (by push_cast; linarith)
  have hP0b : i000 w0 ≤ (n0 : ℤ) := by
    rw [i000]
    have : ⌊w0 + 1⌋ < (n0 : ℤ) + 1 := by
      apply Int.floor_lt.mpr
      push_cast
      rcases hw0r with h | h <;> linarith
    omega
  have hP1a : (1 : ℤ) ≤ i000 w1 := by
    rw [i000]
    exact Int.le_floor.mpr (by push_cast; linarith)
  have hP1b : i000 w1 ≤ (n1 : ℤ) := by
    rw [i000]
    have : ⌊w1 + 1⌋ < (n1 : ℤ) + 1 := by
      apply Int.floor_lt.mpr
      push_cast
      rcases hw1r with h | h <;> linarith
    omega
  have hP2a : (1 : ℤ) ≤ i000 w2 := by
    rw [i000]
    exact Int.le_floor.mpr (by push_cast; linarith)
  have hP2b : i000 w2 ≤ (n2 : ℤ) := by
    rw [i000]
    have : ⌊w2 + 1⌋ < (n2 : ℤ) + 1 := by
      apply Int.floor_lt.mpr
      push_cast
      rcases hw2r with h | h <;> linarith
    omega
  have hA0 : 0 ≤ padIdx n0 (i000 w0) ∧ padIdx n0 (i000 w0) < (n0 : ℤ) := by
    unfold padIdx
    split_ifs <;> omega
  have hA1 : 0 ≤ padIdx n0 (i000 w0 + 1) ∧
      padIdx n0 (i000 w0 + 1) < (n0 : ℤ) := by
    unfold padIdx
    split_ifs <;> omega
  have hB0 : 0 ≤ padIdx n1 (i000 w1) ∧ padIdx n1 (i000 w1) < (n1 : ℤ) := by
    unfold padIdx
    split_ifs <;> omega
  have hB1 : 0 ≤ padIdx n1 (i000 w1 + 1) ∧
      padIdx n1 (i000 w1 + 1) < (n1 : ℤ) := by
    unfold padIdx
    split_ifs <;> omega
  have hz00 := interp1d n2 w2
    (fun m => data (padIdx n0 (i000 w0)) (padIdx n1 (i000 w1)) m)
    (a 0 + a 1 * ((padIdx n0 (i000 w0) : ℤ) : K) +
      a 2 * ((padIdx n1 (i000 w1) : ℤ) : K) +
      a 4 * (((padIdx n0 (i000 w0) : ℤ) : K) * ((padIdx n1 (i000 w1) : ℤ) : K)))
    (a 3 + a 5 * ((padIdx n0 (i000 w0) : ℤ) : K) +
      a 6 * ((padIdx n1 (i000 w1) : ℤ) : K) +
      a 7 * (((padIdx n0 (i000 w0) : ℤ) : K) * ((padIdx n1 (i000 w1) : ℤ) : K)))
    (fun m hm0 hm1 => by
      beta_reduce
      rw [hdata _ _ _ hA0.1 hA0.2 hB0.1 hB0.2 hm0 hm1]
      simp only [trilinearPoly]
      ring)
    hw2l hw2r
  have hz10 := interp1d n2 w2
    (fun m => data (padIdx n0 (i000 w0 + 1)) (padIdx n1 (i000 w1)) m)
    (a 0 + a 1 * ((padIdx n0 (i000 w0 + 1) : ℤ) : K) +
      a 2 * ((padIdx n1 (i000 w1) : ℤ) : K) +
      a 4 * (((padIdx n0 (i000 w0 + 1) : ℤ) : K) *
        ((padIdx n1 (i000 w1) : ℤ) : K)))
    (a 3 + a 5 * ((padIdx n0 (i000 w0 + 1) : ℤ) : K) +
      a 6 * ((padIdx n1 (i000 w1) : ℤ) : K) +
      a 7 * (((padIdx n0 (i000 w0 + 1) : ℤ) : K) *
        ((padIdx n1 (i000 w1) : ℤ) : K)))
    (fun m hm0 hm1 => by
      beta_reduce
      rw [hdata _ _ _ hA1.1 hA1.2 hB0.1 hB0.2 hm0 hm1]
      simp only [trilinearPoly]
      ring)
    hw2l hw2r
  have hz01 := interp1d n2 w2
    (fun m => data (padIdx n0 (i000 w0)) (padIdx n1 (i000 w1 + 1)) m)
    (a 0 + a 1 * ((padIdx n0 (i000 w0) : ℤ) : K) +
      a 2 * ((padIdx n1 (i000 w1 + 1) : ℤ) : K) +
      a 4 * (((padIdx n0 (i000 w0) : ℤ) : K) *
        ((padIdx n1 (i000 w1 + 1) : ℤ) : K)))
    (a 3 + a 5 * ((padIdx n0 (i000 w0) : ℤ) : K) +
      a 6 * ((padIdx n1 (i000 w1 + 1) : ℤ) : K) +
      a 7 * (((padIdx n0 (i000 w0) : ℤ) : K) *
        ((padIdx n1 (i000 w1 + 1) : ℤ) : K)))
    (fun m hm0 hm1 => by
      beta_reduce
      rw [hdata _ _ _ hA0.1 hA0.2 hB1.1 hB1.2 hm0 hm1]
      simp only [trilinearPoly]
      ring)
    hw2l hw2r
  have hz11 := interp1d n2 w2
    (fun m => data (padIdx n0 (i000 w0 + 1)) (padIdx n1 (i000 w1 + 1)) m)
    (a 0 + a 1 * ((padIdx n0 (i000 w0 + 1) : ℤ) : K) +
      a 2 * ((padIdx n1 (i000 w1 + 1) : ℤ) : K) +
      a 4 * (((padIdx n0 (i000 w0 + 1) : ℤ) : K) *
        ((padIdx n1 (i000 w1 + 1) : ℤ) : K)))
    (a 3 + a 5 * ((padIdx n0 (i000 w0 + 1) : ℤ) : K) +
      a 6 * ((padIdx n1 (i000 w1 + 1) : ℤ) : K) +
      a 7 * (((padIdx n0 (i000 w0 + 1) : ℤ) : K) *
        ((padIdx n1 (i000 w1 + 1) : ℤ) : K)))
    (fun m hm0 hm1 => by
      beta_reduce
      rw [hdata _ _ _ hA1.1 hA1.2 hB1.1 hB1.2 hm0 hm1]
      simp only [trilinearPoly]
      ring)
    hw2l hw2r
  have hy0 := interp1d n1 w1
    (fun t => (a 0 + a 1 * ((padIdx n0 (i000 w0) : ℤ) : K) + a 3 * w2 +
        a 5 * (((padIdx n0 (i000 w0) : ℤ) : K) * w2)) +
      (a 2 + a 4 * ((padIdx n0 (i000 w0) : ℤ) : K) + a 6 * w2 +
        a 7 * (((padIdx n0 (i000 w0) : ℤ) : K) * w2)) * (t : K))
    (a 0 + a 1 * ((padIdx n0 (i000 w0) : ℤ) : K) + a 3 * w2 +
      a 5 * (((padIdx n0 (i000 w0) : ℤ) : K) * w2))
    (a 2 + a 4 * ((padIdx n0 (i000 w0) : ℤ) : K) + a 6 * w2 +
      a 7 * (((padIdx n0 (i000 w0) : ℤ) : K) * w2))
    (fun m hm0 hm1 => rfl)
    hw1l hw1r
  have hy1 := interp1d n1 w1
    (fun t => (a 0 + a 1 * ((padIdx n0 (i000 w0 + 1) : ℤ) : K) + a 3 * w2 +
        a 5 * (((padIdx n0 (i000 w0 + 1) : ℤ) : K) * w2)) +
      (a 2 + a 4 * ((padIdx n0 (i000 w0 + 1) : ℤ) : K) + a 6 * w2 +
        a 7 * (((padIdx n0 (i000 w0 + 1) : ℤ) : K) * w2)) * (t : K))
    (a 0 + a 1 * ((padIdx n0 (i000 w0 + 1) : ℤ) : K) + a 3 * w2 +
      a 5 * (((padIdx n0 (i000 w0 + 1) : ℤ) : K) * w2))
    (a 2 + a 4 * ((padIdx n0 (i000 w0 + 1) : ℤ) : K) + a 6 * w2 +
      a 7 * (((padIdx n0 (i000 w0 + 1) : ℤ) : K) * w2))
    (fun m hm0 hm1 => rfl)
    hw1l hw1r
  have hx := interp1d n0 w0
    (fun t => (a 0 + a 2 * w1 + a 3 * w2 + a 6 * (w1 * w2)) +
      (a 1 + a 4 * w1 + a 5 * w2 + a 7 * (w1 * w2)) * (t : K))
    (a 0 + a 2 * w1 + a 3 * w2 + a 6 * (w1 * w2))
    (a 1 + a 4 * w1 + a 5 * w2 + a 7 * (w1 * w2))
    (fun m hm0 hm1 => rfl)
    hw0l hw0r
  simp only at hz00 hz10 hz01 hz11 hy0 hy1 hx
  rw [biliniear_eq_lagrangeCombo]
  obtain ⟨hc0, hc1, hc2, hc3, hc4, hc5, hc6, hc7⟩ :=
    cornerValues_explicit n0 n1 n2 data w0 w1 w2
  rw [lagrangeCombo, hc0, hc1, hc2, hc3, hc4, hc5, hc6, hc7]
  simp only [paddedData, trilinearPoly]
  linear_combination
    (((i000 w0 : ℤ) : K) + 1 - (w0 + 1)) *
        (((i000 w1 : ℤ) : K) + 1 - (w1 + 1)) * hz00 +
      ((w0 + 1) - ((i000 w0 : ℤ) : K)) *
        (((i000 w1 : ℤ) : K) + 1 - (w1 + 1)) * hz10 +
      (((i000 w0 : ℤ) : K) + 1 - (w0 + 1)) *
        ((w1 + 1) - ((i000 w1 : ℤ) : K)) * hz01 +
      ((w0 + 1) - ((i000 w0 : ℤ) : K)) *
        ((w1 + 1) - ((i000 w1 : ℤ) : K)) * hz11 +
      (((i000 w0 : ℤ) : K) + 1 - (w0 + 1)) * hy0 +
      ((w0 + 1) - ((i000 w0 : ℤ) : K)) * hy1 +
      hx

/-- **C1.** For every 3D field and every in-range query point,
`biliniear_interpolation_3d` satisfies: (1) if the query point coincides
exactly with an integer lattice point, the returned value equals the
field value at that lattice point; (2) if the field values are samples
of a trilinear polynomial `a0 + a1 x + a2 y + a3 z + a4 xy + a5 xz +
a6 yz + a7 xyz`, the returned value at any fractional in-range query
point equals that polynomial evaluated at the query point, exactly,
over exact (real) arithmetic.  In-range means each coordinate lies in
`[0, nᵢ - 1]` (stated as `< nᵢ - 1` or `= nᵢ - 1`). -/
theorem biliniear_interpolation_correct :
    (∀ (n0 n1 n2 : ℕ) (data : ℤ → ℤ → ℤ → K) (m0 m1 m2 : ℤ),
        0 ≤ m0 → m0 < (n0 : ℤ) → 0 ≤ m1 → m1 < (n1 : ℤ) →
        0 ≤ m2 → m2 < (n2 : ℤ) →
        biliniear_interpolation_3d n0 n1 n2 data
          ((m0 : ℤ) : K) ((m1 : ℤ) : K) ((m2 : ℤ) : K) = data m0 m1 m2) ∧
    (∀ (n0 n1 n2 : ℕ) (data : ℤ → ℤ → ℤ → K) (a : Fin 8 → K) (w0 w1 w2 : K),
        (∀ i j k : ℤ, 0 ≤ i → i < (n0 : ℤ) → 0 ≤ j → j < (n1 : ℤ) →
          0 ≤ k → k < (n2 : ℤ) →
          data i j k = trilinearPoly a (i : K) (j : K) (k : K)) →
        0 ≤ w0 → (w0 < (n0 : K) - 1 ∨ w0 = (n0 : K) - 1) →
        0 ≤ w1 → (w1 < (n1 : K) - 1 ∨ w1 = (n1 : K) - 1) →
        0 ≤ w2 → (w2 < (n2 : K) - 1 ∨ w2 = (n2 : K) - 1) →
        biliniear_interpolation_3d n0 n1 n2 data w0 w1 w2 =
          trilinearPoly a w0 w1 w2) :=
  ⟨fun n0 n1 n2 data m0 m1 m2 h1 h2 h3 h4 h5 h6 =>
      interp_at_lattice n0 n1 n2 data m0 m1 m2 h1 h2 h3 h4 h5 h6,
    fun n0 n1 n2 data a w0 w1 w2 hdata h1 h2 h3 h4 h5 h6 =>
      interp_trilinear_exact n0 n1 n2 data a hdata w0 w1 w2 h1 h2 h3 h4 h5 h6⟩

/-- Witness for C1: a concrete lattice-point query and a concrete
fractional query against the trilinear field `1 + x + y z` over `ℚ`. -/
theorem biliniear_interpolation_correct_witness :
    biliniear_interpolation_3d 2 3 2 (fun i j k => (i : ℚ) + (j : ℚ) * (k : ℚ))
        ((1 : ℤ) : ℚ) ((2 : ℤ) : ℚ) ((0 : ℤ) : ℚ) = 1 ∧
    biliniear_interpolation_3d 2 2 2
        (fun i j k => 1 + (i : ℚ) + (j : ℚ) * (k : ℚ))
        (1/2) (1/2) (1/2) = 7/4 := by
  constructor
  · have h := biliniear_interpolation_correct.1 2 3 2
      (fun i j k => (i : ℚ) + (j : ℚ) * (k : ℚ)) 1 2 0
      (by norm_num) (by norm_num) (by norm_num) (by norm_num)
      (by norm_num) (by norm_num)
    rw [h]
    norm_num
  · have h := biliniear_interpolation_correct.2 2 2 2
      (fun i j k => 1 + (i : ℚ) + (j : ℚ) * (k : ℚ)) ![1, 1, 0, 0, 0, 0, 1, 0]
      (1/2) (1/2) (1/2)
      (fun i j k _ _ _ _ _ _ => by
        norm_num [trilinearPoly, vec8_0, vec8_1, vec8_2, vec8_3, vec8_4,
          vec8_5, vec8_6, vec8_7])
      (by norm_num) (Or.inl (by norm_num)) (by norm_num) (Or.inl (by norm_num))
      (by norm_num) (Or.inl (by norm_num))
    rw [h]
    norm_num [trilinearPoly, vec8_0, vec8_1, vec8_2, vec8_3, vec8_4,
      vec8_5, vec8_6, vec8_7]

/-- **C8.** For every input field shape `(n0, n1, n2)` and every query
point each of whose coordinates lies within one voxel of the original
array bounds (strictly greater than `-1` and strictly less than `nᵢ`),
all eight neighbour indices gathered by `biliniear_interpolation_3d`
after its internal one-voxel symmetric padding and coordinate shift —
namely `i000 wᵢ` plus the corner offset — lie within the bounds
`[0, nᵢ + 2)` of the padded array, so the gathers never index out of
bounds. -/
theorem gather_indices_in_bounds (n0 n1 n2 : ℕ) (w0 w1 w2 : K)
    (h0l : -1 < w0) (h0r : w0 < (n0 : K))
    (h1l : -1 < w1) (h1r : w1 < (n1 : K))
    (h2l : -1 < w2) (h2r : w2 < (n2 : K)) (r : Fin 8) :
    (0 ≤ i000 w0 + (xbit r : ℤ) ∧ i000 w0 + (xbit r : ℤ) < (n0 : ℤ) + 2) ∧
    (0 ≤ i000 w1 + (ybit r : ℤ) ∧ i000 w1 + (ybit r : ℤ) < (n1 : ℤ) + 2) ∧
    (0 ≤ i000 w2 + (zbit r : ℤ) ∧ i000 w2 + (zbit r : ℤ) < (n2 : ℤ) + 2) := by
  have hr := r.isLt
  have bx : xbit r ≤ 1 := by
    unfold xbit
    omega
  have hy : ybit r ≤ 1 := by
    unfold ybit
    omega
  have bz : zbit r ≤ 1 := by
    unfold zbit
    omega
  have f0a : 0 ≤ i000 w0 := by
    rw [i000]
    exact Int.floor_nonneg.mpr (by linarith)
  have f0b : i000 w0 < (n0 : ℤ) + 1 := by
    rw [i000]
    exact Int.floor_lt.mpr (by push_cast; linarith)
  have f1a : 0 ≤ i000 w1 := by
    rw [i000]
    exact Int.floor_nonneg.mpr (by linarith)
  have f1b : i000 w1 < (n1 : ℤ) + 1 := by
    rw [i000]
    exact Int.floor_lt.mpr (by push_cast; linarith)
  have f2a : 0 ≤ i000 w2 := by
    rw [i000]
    exact Int.floor_nonneg.mpr (by linarith)
  have f2b : i000 w2 < (n2 : ℤ) + 1 := by
    rw [i000]
    exact Int.floor_lt.mpr (by push_cast; linarith)
  refine ⟨⟨?_, ?_⟩, ⟨?_, ?_⟩, ⟨?_, ?_⟩⟩ <;> omega

/-- Witness for C8: a concrete query point half a voxel outside the
original bounds on each side, on a `1 × 1 × 1` field, with the corner
`c111`. -/
theorem gather_indices_in_bounds_witness :
    (0 ≤ i000 (-1/2 : ℚ) + (xbit 7 : ℤ) ∧
      i000 (-1/2 : ℚ) + (xbit 7 : ℤ) < (1 : ℤ) + 2) ∧
    (0 ≤ i000 (0 : ℚ) + (ybit 7 : ℤ) ∧
      i000 (0 : ℚ) + (ybit 7 : ℤ) < (1 : ℤ) + 2) ∧
    (0 ≤ i000 (1/2 : ℚ) + (zbit 7 : ℤ) ∧
      i000 (1/2 : ℚ) + (zbit 7 : ℤ) < (1 : ℤ) + 2) := by
  have h := gather_indices_in_bounds 1 1 1 (-1/2 : ℚ) (0 : ℚ) (1/2 : ℚ)
    (by norm_num) (by norm_num) (by norm_num) (by norm_num)
    (by norm_num) (by norm_num) 7
  simpa using h

end Interpolation

/-! ## `util.multislice_propagate`: kernel selection and slice transmission

`util.py` lines 286-370 (and the numpy twin, lines 435-473).  The
embedding covers the two claim-relevant ingredients: the TF/IR kernel
choice of the free-space propagation step (lines 336-344 and 462-470)
and the per-slice transmission factor (lines 310-318). -/

/-- The two Fresnel kernel algorithms: `TF` is the transfer-function
kernel built by `get_kernel`, `IR` the impulse-response kernel built by
`get_kernel_ir`. -/
inductive KernelAlg : Type
  | TF : KernelAlg
  | IR : KernelAlg
deriving DecidableEq

/-- `mean_voxel_nm = np.prod(voxel_nm) ** (1. / 3)` (line 298 / 444). -/
noncomputable def mean_voxel_nm (voxel_nm : Fin 3 → ℝ) : ℝ :=
  (∏ i, voxel_nm i) ^ ((1 : ℝ) / 3)

/-- `size_nm = np.array(obj_shape) * voxel_nm` (line 299 / 445): the
physical grid size per axis. -/
def size_nm (obj_shape : Fin 3 → ℕ) (voxel_nm : Fin 3 → ℝ) : Fin 3 → ℝ :=
  fun i => (obj_shape i : ℝ) * voxel_nm i

/-- `l = np.prod(size_nm) ** (1. / 3); crit_samp = lmbda_nm * dist_nm / l`
(lines 338-339 / 464-465). -/
noncomputable def crit_samp (lmbda_nm dist_nm : ℝ) (sz : Fin 3 → ℝ) : ℝ :=
  lmbda_nm * dist_nm / (∏ i, sz i) ^ ((1 : ℝ) / 3)

/-- The kernel choice of the free-space propagation step,
`algorithm = 'TF' if mean_voxel_nm > crit_samp else 'IR'`
(util.py line 340 / 466), after which `h = get_kernel …` is used for
`'TF'` and `h = get_kernel_ir …` for `'IR'`. -/
noncomputable def freePropAlgorithm (voxel_nm : Fin 3 → ℝ)
    (obj_shape : Fin 3 → ℕ) (lmbda_nm dist_nm : ℝ) : KernelAlg :=
  if mean_voxel_nm voxel_nm >
      crit_samp lmbda_nm dist_nm (size_nm obj_shape voxel_nm)
  then KernelAlg.TF else KernelAlg.IR

/-- **C2.** The free-space propagation step selects the
transfer-function kernel (`get_kernel`) if and only if the mean voxel
pitch `(p0·p1·p2)^(1/3)` is strictly greater than the critical sampling
distance `λ·d` divided by the cube root of the grid's physical size,
and selects the impulse-response kernel (`get_kernel_ir`) otherwise; at
the equality boundary the choice is IR. -/
theorem kernel_selection_tf_iff (voxel_nm : Fin 3 → ℝ) (obj_shape : Fin 3 → ℕ)
    (lmbda_nm dist_nm : ℝ) :
    (freePropAlgorithm voxel_nm obj_shape lmbda_nm dist_nm = KernelAlg.TF ↔
      (voxel_nm 0 * voxel_nm 1 * voxel_nm 2) ^ ((1 : ℝ) / 3) >
        lmbda_nm * dist_nm /
          (size_nm obj_shape voxel_nm 0 * size_nm obj_shape voxel_nm 1 *
            size_nm obj_shape voxel_nm 2) ^ ((1 : ℝ) / 3)) ∧
    (freePropAlgorithm voxel_nm obj_shape lmbda_nm dist_nm = KernelAlg.IR ↔
      ¬ (voxel_nm 0 * voxel_nm 1 * voxel_nm 2) ^ ((1 : ℝ) / 3) >
        lmbda_nm * dist_nm /
          (size_nm obj_shape voxel_nm 0 * size_nm obj_shape voxel_nm 1 *
            size_nm obj_shape voxel_nm 2) ^ ((1 : ℝ) / 3)) ∧
    (mean_voxel_nm voxel_nm =
        crit_samp lmbda_nm dist_nm (size_nm obj_shape voxel_nm) →
      freePropAlgorithm voxel_nm obj_shape lmbda_nm dist_nm = KernelAlg.IR) := by
  have hm : mean_voxel_nm voxel_nm =
      (voxel_nm 0 * voxel_nm 1 * voxel_nm 2) ^ ((1 : ℝ) / 3) := by
    rw [mean_voxel_nm, Fin.prod_univ_three]
  have hc : crit_samp lmbda_nm dist_nm (size_nm obj_shape voxel_nm) =
      lmbda_nm * dist_nm /
        (size_nm obj_shape voxel_nm 0 * size_nm obj_shape voxel_nm 1 *
          size_nm obj_shape voxel_nm 2) ^ ((1 : ℝ) / 3) := by
    rw [crit_samp, Fin.prod_univ_three]
  refine ⟨?_, ?_, ?_⟩
  · rw [freePropAlgorithm, ← hm, ← hc]
    split_ifs with h
    · simp [h]
    · simp [h]
  · rw [freePropAlgorithm, ← hm, ← hc]
    split_ifs with h
    · simp [h]
    · simp [h]
  · intro heq
    rw [freePropAlgorithm, if_neg]
    rw [heq]
    exact lt_irrefl _

/-- Witness for C2: unit pitch, unit grid, `λ·d = 1` sits exactly on the
critical-sampling boundary, and the choice is IR. -/
theorem kernel_selection_tf_iff_witness :
    freePropAlgorithm (fun _ => 1) (fun _ => 1) 1 1 = KernelAlg.IR := by
  apply (kernel_selection_tf_iff (fun _ => 1) (fun _ => 1) 1 1).2.2
  simp [mean_voxel_nm, crit_samp, size_nm, Real.one_rpow]

/-- Modelled from the spec: the constant `PI` that `util.py` imports
from the repository's `constants` module, which is absent from the
sources; the spec's formula `k = 2π·slice_thickness/λ` fixes it to the
real π. -/
noncomputable def PI : ℝ := Real.pi

/-- `k = 2. * PI * delta_nm / lmbda_nm` (util.py line 310). -/
noncomputable def kcoef (delta_nm lmbda_nm : ℝ) : ℝ :=
  2 * PI * delta_nm / lmbda_nm

/-- The per-slice transmission factor
`c = tf.exp(1j * k * delta_slice) * tf.exp(-k * beta_slice)`
(util.py line 317), per voxel of the slice. -/
noncomputable def sliceTransmission (delta_nm lmbda_nm dlt bta : ℝ) : ℂ :=
  Complex.exp (Complex.I * (kcoef delta_nm lmbda_nm : ℂ) * (dlt : ℂ)) *
    Complex.exp (-((kcoef delta_nm lmbda_nm : ℂ) * (bta : ℂ)))

/-- The slice step `wavefront = wavefront * c` (util.py line 318). -/
noncomputable def sliceModulate (wavefront : ℂ)
    (delta_nm lmbda_nm dlt bta : ℝ) : ℂ :=
  wavefront * sliceTransmission delta_nm lmbda_nm dlt bta

/-- **C5.** In every slice step of `multislice_propagate` the wavefront
is multiplied by `exp(i·k·δ)·exp(−k·β)` with `k = 2π·slice_thickness/λ`;
the β factor is the exponential of a pure real negative exponent
(attenuation only: a real number, imaginary part zero), and the δ
factor is the exponential of a pure imaginary exponent (phase rotation
only: modulus one). -/
theorem slice_transmission_structure (delta_nm lmbda_nm dlt bta : ℝ) :
    sliceTransmission delta_nm lmbda_nm dlt bta =
      Complex.exp (Complex.I *
          ((2 * Real.pi * delta_nm / lmbda_nm * dlt : ℝ) : ℂ)) *
        ((Real.exp (-(2 * Real.pi * delta_nm / lmbda_nm * bta)) : ℝ) : ℂ) ∧
    Complex.abs (Complex.exp (Complex.I *
        ((2 * Real.pi * delta_nm / lmbda_nm * dlt : ℝ) : ℂ))) = 1 ∧
    (((Real.exp (-(2 * Real.pi * delta_nm / lmbda_nm * bta)) : ℝ) : ℂ)).im
      = 0 := by
  refine ⟨?_, ?_, ?_⟩
  · rw [sliceTransmission, kcoef, PI, Complex.ofReal_exp]
    congr 1
    · congr 1
      push_cast
      ring
    · congr 1
      push_cast
      ring
  · rw [Complex.abs_exp]
    simp [Complex.mul_re]
  · exact Complex.ofReal_im _

/-! ## `reconstruct_ptychography`: driver control flow

`ptychography.py` lines 360-483.  The driver is modelled for a single
worker (`hvd.rank() == 0`, `mpi4py` available): `loss : ℕ → K` gives the
`current_loss` value reported at the end of each epoch by the external
session execution, and the optimizer updates are arbitrary functions
supplied by the external Adam optimizer. -/

section Driver

variable {K : Type} [LinearOrderedField K]

/-- The stopping condition of line 464:
`-crit_conv_rate < (current_loss - loss_ls[-1]) / loss_ls[-1] < 0`. -/
def stopCondition (crit prev cur : K) : Prop :=
  -crit < (cur - prev) / prev ∧ (cur - prev) / prev < 0

instance stopCondition.instDecidable (crit prev cur : K) :
    Decidable (stopCondition crit prev cur) :=
  inferInstanceAs (Decidable (_ ∧ _))

/-- The epoch loop under `n_epochs = 'auto'` (lines 360, 460-483),
starting from epoch `e` with the given remaining epoch budget: after
epoch `e` finishes, if at least one epoch has been recorded
(`len(loss_ls) > 0`, i.e. `e ≥ 1`) and the relative loss change lies in
`(-crit_conv_rate, 0)`, the level breaks at epoch `e`; otherwise the
next epoch runs. -/
def autoStopAux (loss : ℕ → K) (crit : K) : ℕ → ℕ → Option ℕ
  | 0, _ => none
  | fuel + 1, e =>
    if 1 ≤ e ∧ stopCondition crit (loss (e - 1)) (loss e)
    then some e
    else autoStopAux loss crit fuel (e + 1)

/-- The epoch at which a level under `n_epochs = 'auto'` stops, or
`none` when the `max_nepochs` budget `n_loop` runs out first. -/
def autoStopEpoch (loss : ℕ → K) (crit : K) (n_loop : ℕ) : Option ℕ :=
  autoStopAux loss crit n_loop 0

lemma autoStopAux_hit (loss : ℕ → K) (crit : K) (fuel e : ℕ)
    (h1 : 1 ≤ e) (h2 : stopCondition crit (loss (e - 1)) (loss e)) :
    autoStopAux loss crit (fuel + 1) e = some e := by
  simp only [autoStopAux]
  rw [if_pos ⟨h1, h2⟩]

lemma autoStopAux_skip (loss : ℕ → K) (crit : K) (fuel e : ℕ)
    (h : ¬ (1 ≤ e ∧ stopCondition crit (loss (e - 1)) (loss e))) :
    autoStopAux loss crit (fuel + 1) e = autoStopAux loss crit fuel (e + 1) := by
  simp only [autoStopAux]
  rw [if_neg h]

lemma autoStopAux_reach (loss : ℕ → K) (crit : K) (k : ℕ)
    (hstop : stopCondition crit (loss k) (loss (k + 1))) (d : ℕ) :
    ∀ e fuel, e + d = k + 1 →
      (∀ e', e ≤ e' → e' ≤ k → 1 ≤ e' →
        ¬ stopCondition crit (loss (e' - 1)) (loss e')) →
      k + 1 - e < fuel →
      autoStopAux loss crit fuel e = some (k + 1) := by
  induction d with
  | zero =>
    intro e fuel he _ hfuel
    have hek : e = k + 1 := by omega
    subst hek
    obtain ⟨f, rfl⟩ : ∃ f, fuel = f + 1 := ⟨fuel - 1, by omega⟩
    exact autoStopAux_hit _ _ _ _ (by omega) (by simpa using hstop)
  | succ d ih =>
    intro e fuel he hnone hfuel
    obtain ⟨f, rfl⟩ : ∃ f, fuel = f + 1 := ⟨fuel - 1, by omega⟩
    rw [autoStopAux_skip]
    · exact ih (e + 1) f (by omega)
        (fun e' h1 h2 h3 => hnone e' (by omega) h2 h3) (by omega)
    · rintro ⟨h1, h2⟩
      exact hnone e le_rfl (by omega) h1 h2

/-- **C6.** When the epoch budget is `'auto'`, the driver stops a level
at exactly the first epoch whose relative loss change
`(current − previous) / previous` lies strictly within
`(-crit_conv_rate, 0)`: for a loss sequence strictly decreasing by less
than the threshold fraction from epoch `k` on — and not triggering the
condition before — the level stops at epoch `k + 1`, not earlier and
not later (given the `max_nepochs` budget is not exhausted first). -/
theorem auto_convergence_stop (loss : ℕ → K) (crit : K) (n_loop k : ℕ)
    (hpos : 0 < loss k)
    (hdec : loss (k + 1) < loss k)
    (hsmall : loss k - loss (k + 1) < crit * loss k)
    (hbefore : ∀ e, 1 ≤ e → e ≤ k →
      ¬ stopCondition crit (loss (e - 1)) (loss e))
    (hn : k + 1 < n_loop) :
    autoStopEpoch loss crit n_loop = some (k + 1) := by
  have hstop : stopCondition crit (loss k) (loss (k + 1)) := by
    constructor
    · rw [lt_div_iff hpos]
      nlinarith
    · exact div_neg_of_neg_of_pos (by linarith) hpos
  exact autoStopAux_reach loss crit k hstop (k + 1) 0 n_loop (by omega)
    (fun e' _ h2 h3 => hbefore e' h3 h2) hn

/-- Witness for C6: with threshold `1/10` and losses
`10, 10, 9.5, 9, …`, the flat first step does not trigger, the small
relative drop from epoch 1 to epoch 2 (5%) does, and the level stops at
epoch 2. -/
theorem auto_convergence_stop_witness :
    autoStopEpoch
      (fun n => if n = 0 then (10 : ℚ) else if n = 1 then 10
        else if n = 2 then 19/2 else 9)
      (1/10) 5 = some 2 := by
  have h := auto_convergence_stop
    (fun n => if n = 0 then (10 : ℚ) else if n = 1 then 10
      else if n = 2 then 19/2 else 9)
    (1/10) 5 1
    (by norm_num) (by norm_num) (by norm_num)
    (fun e h1 h2 => by
      have he : e = 1 := by omega
      subst he
      norm_num [stopCondition])
    (by norm_num)
  simpa using h

/-- `tf.nn.relu` applied to the object (ptychography.py line 457):
negative voxel values clamp to 0. -/
def relu (x : K) : K := max x 0

/-- The object volume after the first `j` optimizer update steps of one
epoch (lines 371-432: one update per processed minibatch per projection
angle; the update functions themselves come from the external Adam
optimizer). -/
def afterUpdates {ι : Type} (updates : List ((ι → K) → (ι → K)))
    (obj : ι → K) (j : ℕ) : ι → K :=
  (updates.take j).foldl (fun acc u => u acc) obj

/-- One full epoch of the driver: all of the epoch's update steps, then
the epoch-end clamp `obj = tf.nn.relu(obj)` (lines 456-457). -/
def epochStep {ι : Type} (updates : List ((ι → K) → (ι → K)))
    (obj : ι → K) : ι → K :=
  fun v => relu (afterUpdates updates obj updates.length v)

/-- Counterexample to C3 as stated: an epoch with two minibatch update
steps whose first step (a gradient step of size 1 on a zero voxel)
leaves the voxel at `-1`; no clamp runs between the two update steps,
so after that optimizer update the voxel is negative. -/
theorem object_nonneg_per_update_counterexample :
    ¬ (0 : ℚ) ≤ afterUpdates
      [fun o v => o v - 1, fun o => o] (fun _ => (0 : ℚ)) 1 (0 : Fin 1) := by
  norm_num [afterUpdates]

/-- C3 as amended: every voxel of the object volume is non-negative
after the epoch-end clamp (`obj = tf.nn.relu(obj)` runs once per epoch,
after all of that epoch's update steps), not after every individual
optimizer update step. -/
theorem object_nonneg_after_epoch_clamp {ι : Type}
    (updates : List ((ι → K) → (ι → K))) (obj : ι → K) (v : ι) :
    0 ≤ epochStep updates obj v := by
  simp [epochStep, relu]

end Driver

/-! ## `reconstruct_ptychography`: probe initialisation

`ptychography.py` lines 204-238, and the position of that block within
one resolution level: data reading (line 85), dataset creation
(141-151), object initialisation (170-200), probe initialisation
(204-238), kernel generation (242-247), physical-model build (249-258),
optimizer creation (282-320) and the session loop (360-483). -/

/-- The phases of one resolution level of `reconstruct_ptychography`,
in execution order. -/
inductive Phase : Type
  | readData : Phase
  | createDataset : Phase
  | initObject : Phase
  | initProbe : Phase
  | makeKernel : Phase
  | buildModel : Phase
  | createOptimizer : Phase
  | runOptimization : Phase
deriving DecidableEq

/-- Probe initialisation (lines 204-238): `'gaussian'`, `'optimizable'`
and `'fixed'` are accepted; any other `probe_type` raises
`ValueError('Invalid wavefront type. …')`. -/
def initProbe (probe_type : String) : Except String Unit :=
  if probe_type = "gaussian" then Except.ok ()
  else if probe_type = "optimizable" then Except.ok ()
  else if probe_type = "fixed" then Except.ok ()
  else Except.error "Invalid wavefront type."

/-- The phases a resolution level executes: the raise in probe
initialisation aborts the level before the kernel, the physical model,
the optimizer and the session loop are ever reached. -/
def levelPhases (probe_type : String) : List Phase :=
  [Phase.readData, Phase.createDataset, Phase.initObject] ++
    match initProbe probe_type with
    | Except.ok _ => [Phase.initProbe, Phase.makeKernel, Phase.buildModel,
        Phase.createOptimizer, Phase.runOptimization]
    | Except.error _ => [Phase.initProbe]

/-- The fatal configuration error a level reports, if any. -/
def levelError (probe_type : String) : Option String :=
  match initProbe probe_type with
  | Except.ok _ => none
  | Except.error e => some e

/-- **C9.** `reconstruct_ptychography` raises a fatal configuration
error if and only if `probe_type` is none of `'gaussian'`,
`'optimizable'`, `'fixed'`; and when it raises, it does so during probe
initialisation, before the propagation model or any optimization work
is built. -/
theorem probe_type_validation (probe_type : String) :
    ((levelError probe_type).isSome ↔
      probe_type ≠ "gaussian" ∧ probe_type ≠ "optimizable" ∧
        probe_type ≠ "fixed") ∧
    ((levelError probe_type).isSome →
      levelPhases probe_type =
        [Phase.readData, Phase.createDataset, Phase.initObject,
          Phase.initProbe] ∧
      Phase.buildModel ∉ levelPhases probe_type ∧
      Phase.createOptimizer ∉ levelPhases probe_type ∧
      Phase.runOptimization ∉ levelPhases probe_type) := by
  unfold levelError levelPhases initProbe
  split_ifs with h1 h2 h3 <;> simp_all

/-- Witness for C9: the probe type `'plane'` (named in the error message
but not accepted) raises, and the model-building phase is never
reached. -/
theorem probe_type_validation_witness :
    (levelError "plane").isSome ∧ Phase.buildModel ∉ levelPhases "plane" := by
  have h := probe_type_validation "plane"
  have he : (levelError "plane").isSome := h.1.mpr (by decide)
  exact ⟨he, (h.2 he).2.1⟩

/-! ## `reconstruct_ptychography`: loss assembly

`rotate_and_project` (ptychography.py lines 26-50) and the aggregation
of lines 262-277.  The exit wavefronts produced by
`multislice_propagate` for the minibatch's poses, the measured patterns
`this_prj_batch`, the optional circular probe mask, and the regulariser
value are taken as inputs; the embedding covers the transform,
magnitude, mean-square and aggregation structure. -/

section Loss

/-- `tf.fft2d`: the 2D discrete Fourier transform on an `sh 0 × sh 1`
complex field. -/
noncomputable def fft2d {sh : Fin 2 → ℕ} (u : Tensor 2 sh ℂ) :
    Tensor 2 sh ℂ :=
  fun k => ∑ m : (i : Fin 2) → Fin (sh i),
    u m * Complex.exp (-(2 * (Real.pi : ℂ) * Complex.I) *
      ((((m 0).val * (k 0).val : ℕ) : ℂ) / ((sh 0 : ℕ) : ℂ) +
        (((m 1).val * (k 1).val : ℕ) : ℂ) / ((sh 1 : ℕ) : ℂ)))

/-- `tf.reduce_mean` over a 2D real field. -/
noncomputable def reduceMean {sh : Fin 2 → ℕ} (f : Tensor 2 sh ℝ) : ℝ :=
  (∑ p : (i : Fin 2) → Fin (sh i), f p) /
    (Fintype.card ((i : Fin 2) → Fin (sh i)) : ℝ)

/-- The per-pose loss term of `rotate_and_project` (lines 46-49): the
exit wavefront is multiplied by the circular probe mask when one is
configured, Fourier transformed and zero-frequency shifted; the term is
the mean squared difference between its magnitude and the magnitude of
the measured diffraction pattern. -/
noncomputable def poseLossTerm {sh : Fin 2 → ℕ}
    (mask : Option (Tensor 2 sh ℝ)) (exiting meas : Tensor 2 sh ℂ) : ℝ :=
  reduceMean (fun p =>
    (Complex.abs
        (fftshift (fft2d (match mask with
          | some pm => fun q => exiting q * ((pm q : ℝ) : ℂ)
          | none => exiting)) p) -
      Complex.abs (meas p)) ^ 2)

/-- The minibatch loss accumulated by the `for j in range(minibatch_size)`
loop of `rotate_and_project` (lines 30-49): `loss` starts at `0.0`
(line 240) and gains one term per position. -/
noncomputable def minibatchLoss {sh : Fin 2 → ℕ} (nb : ℕ)
    (mask : Option (Tensor 2 sh ℝ)) (exiting meas : Fin nb → Tensor 2 sh ℂ) :
    ℝ :=
  (List.finRange nb).foldl
    (fun acc j => acc + poseLossTerm mask (exiting j) (meas j)) 0

/-- The total loss of line 273:
`loss = loss / n_theta / float(n_pos) + reg_term`. -/
noncomputable def totalLoss {sh : Fin 2 → ℕ} (nb : ℕ)
    (mask : Option (Tensor 2 sh ℝ)) (exiting meas : Fin nb → Tensor 2 sh ℂ)
    (n_theta n_pos : ℕ) (reg_term : ℝ) : ℝ :=
  minibatchLoss nb mask exiting meas / (n_theta : ℝ) / (n_pos : ℝ) + reg_term

/-- The claim's formula, as the spec words it: the sum over poses of the
mean squared difference between the magnitude of the zero-frequency-
shifted Fourier transform of the (optionally circularly masked) exit
wavefront and the magnitude of the measured pattern, divided by
`n_angles · n_positions`, plus the regulariser. -/
noncomputable def totalLossSpec {sh : Fin 2 → ℕ} (nb : ℕ)
    (mask : Option (Tensor 2 sh ℝ)) (exiting meas : Fin nb → Tensor 2 sh ℂ)
    (n_theta n_pos : ℕ) (reg_term : ℝ) : ℝ :=
  (∑ j : Fin nb, poseLossTerm mask (exiting j) (meas j)) /
    ((n_theta : ℝ) * (n_pos : ℝ)) + reg_term

lemma foldl_add_eq_sum {β : Type} (f : β → ℝ) (l : List β) (init : ℝ) :
    l.foldl (fun acc j => acc + f j) init = init + (l.map f).sum := by
  induction l generalizing init with
  | nil => simp
  | cons b l ih =>
    simp only [List.foldl_cons, List.map_cons, List.sum_cons, ih]
    ring

/-- **C4.** The total loss computed by `reconstruct_ptychography`
equals the sum over poses of the mean squared difference between the
magnitude of the zero-frequency-shifted 2D Fourier transform of the
(optionally circularly masked) exit wavefront and the magnitude of the
corresponding measured diffraction pattern, divided by
`n_angles · n_positions`, plus the regulariser term. -/
theorem total_loss_formula {sh : Fin 2 → ℕ} (nb : ℕ)
    (mask : Option (Tensor 2 sh ℝ)) (exiting meas : Fin nb → Tensor 2 sh ℂ)
    (n_theta n_pos : ℕ) (reg_term : ℝ) :
    totalLoss nb mask exiting meas n_theta n_pos reg_term =
      totalLossSpec nb mask exiting meas n_theta n_pos reg_term := by
  rw [totalLoss, totalLossSpec, minibatchLoss, div_div, foldl_add_eq_sum,
    zero_add]
  congr 2

end Loss

/-! ## object rotation: boundary fill

`rotate_and_project` (ptychography.py line 29) rotates the object with
`tf.contrib.image.rotate(obj, this_theta, interpolation='BILINEAR')`,
an external library routine whose out-of-bounds fill is the constant 0.
The repository's own rotation primitive, `util.rotate_image_tensor`
(util.py lines 596-677), is embedded here; it realises the same
backward-rotation resampling (nearest-neighbour) and makes the boundary
convention explicit through its `mode` argument: `'black'` (the
default), `'white'` and `'ones'` fill out-of-bounds samples with a
constant background, `'repeat'` clamps to the border — none mirrors.
Channels are rotated independently; one channel is modelled.  `tf.round`
rounds half-integers to even where Mathlib's `round` rounds them up;
the claims are settled away from half-integer sample coordinates. -/

/-- The boundary modes of `rotate_image_tensor` (line 610). -/
inductive RotMode : Type
  | black : RotMode
  | white : RotMode
  | ones : RotMode
  | repeatEdge : RotMode
deriving DecidableEq

/-- `background_color` (lines 665-670): 0 for `black` (and for
`repeat`, where it is never used), 1 for `ones`, 255 for `white`. -/
def backgroundColor : RotMode → ℝ
  | RotMode.black => 0
  | RotMode.white => 255
  | RotMode.ones => 1
  | RotMode.repeatEdge => 0

/-- First source coordinate of the backward rotation (lines 628-637):
`round(cos θ · (i − c0) + sin θ · (j − c1) + c0)` with image centre
`c = ⌊s/2⌋`. -/
noncomputable def rotSource1 (s0 s1 : ℕ) (angle : ℝ) (i j : ℕ) : ℤ :=
  round (Real.cos angle * ((i : ℝ) - ((s0 / 2 : ℕ) : ℝ)) +
    Real.sin angle * ((j : ℝ) - ((s1 / 2 : ℕ) : ℝ)) + ((s0 / 2 : ℕ) : ℝ))

/-- Second source coordinate of the backward rotation:
`round(−sin θ · (i − c0) + cos θ · (j − c1) + c1)`. -/
noncomputable def rotSource2 (s0 s1 : ℕ) (angle : ℝ) (i j : ℕ) : ℤ :=
  round (-Real.sin angle * ((i : ℝ) - ((s0 / 2 : ℕ) : ℝ)) +
    Real.cos angle * ((j : ℝ) - ((s1 / 2 : ℕ) : ℝ)) + ((s1 / 2 : ℕ) : ℝ))

/-- `rotate_image_tensor` (lines 596-677) at one output pixel `(i, j)`:
under `repeat` the source coordinates clamp to the border (lines
640-642); under the other modes, in-bounds sources are gathered and
out-of-bounds pixels receive `background_color` (lines 643-673, via the
`boolean_mask` / `sparse_to_dense` default). -/
noncomputable def rotate_image_tensor (s0 s1 : ℕ) (image : ℤ → ℤ → ℝ)
    (angle : ℝ) (mode : RotMode) (i j : ℕ) : ℝ :=
  match mode with
  | RotMode.repeatEdge =>
      image (min (max (rotSource1 s0 s1 angle i j) 0) ((s0 : ℤ) - 1))
        (min (max (rotSource2 s0 s1 angle i j) 0) ((s1 : ℤ) - 1))
  | m =>
      if 0 ≤ rotSource1 s0 s1 angle i j ∧
          rotSource1 s0 s1 angle i j < (s0 : ℤ) ∧
          0 ≤ rotSource2 s0 s1 angle i j ∧
          rotSource2 s0 s1 angle i j < (s1 : ℤ)
      then image (rotSource1 s0 s1 angle i j) (rotSource2 s0 s1 angle i j)
      else backgroundColor m

/-- One symmetric boundary reflection of an index into `[0, n)`. -/
def mirrorIdx (n : ℕ) (i : ℤ) : ℤ :=
  if i < 0 then -1 - i else if (n : ℤ) ≤ i then 2 * (n : ℤ) - 1 - i else i

/-- Modelled from the spec: the rotation the claim describes, in which
"out-of-bounds samples are defined by the symmetric-padding convention
(mirror at the boundary)": the same backward rotation, with
out-of-bounds source coordinates reflected at the boundary instead of
replaced by a background constant. -/
noncomputable def rotate_image_mirror (s0 s1 : ℕ) (image : ℤ → ℤ → ℝ)
    (angle : ℝ) (i j : ℕ) : ℝ :=
  image (mirrorIdx s0 (rotSource1 s0 s1 angle i j))
    (mirrorIdx s1 (rotSource2 s0 s1 angle i j))

lemma rotate_image_tensor_black (s0 s1 : ℕ) (image : ℤ → ℤ → ℝ)
    (angle : ℝ) (i j : ℕ) :
    rotate_image_tensor s0 s1 image angle RotMode.black i j =
      if 0 ≤ rotSource1 s0 s1 angle i j ∧
          rotSource1 s0 s1 angle i j < (s0 : ℤ) ∧
          0 ≤ rotSource2 s0 s1 angle i j ∧
          rotSource2 s0 s1 angle i j < (s1 : ℤ)
      then image (rotSource1 s0 s1 angle i j) (rotSource2 s0 s1 angle i j)
      else 0 := rfl

/-- Counterexample to C7: rotating the all-ones 2×2 image by π/2, the
output pixel (0,0) samples source (0,2), which is out of bounds; the
code fills it with 0 (zero/background fill), while the symmetric-
padding convention the claim asserts would mirror it to (0,1) and
return 1. -/
theorem rotation_fill_counterexample :
    rotate_image_tensor 2 2 (fun _ _ => 1) (Real.pi / 2) RotMode.black 0 0
        = 0 ∧
    rotate_image_mirror 2 2 (fun _ _ => 1) (Real.pi / 2) 0 0 = 1 ∧
    rotate_image_tensor 2 2 (fun _ _ => 1) (Real.pi / 2) RotMode.black 0 0 ≠
      rotate_image_mirror 2 2 (fun _ _ => 1) (Real.pi / 2) 0 0 := by
  have h1 : rotSource1 2 2 (Real.pi / 2) 0 0 = 0 := by
    rw [rotSource1]
    norm_num [Real.cos_pi_div_two, Real.sin_pi_div_two]
  have h2 : rotSource2 2 2 (Real.pi / 2) 0 0 = 2 := by
    rw [rotSource2]
    norm_num [Real.cos_pi_div_two, Real.sin_pi_div_two]
  have ha : rotate_image_tensor 2 2 (fun _ _ => 1) (Real.pi / 2)
      RotMode.black 0 0 = 0 := by
    rw [rotate_image_tensor_black, if_neg]
    rw [h1, h2]
    norm_num
  have hb : rotate_image_mirror 2 2 (fun _ _ => 1) (Real.pi / 2) 0 0 = 1 :=
    rfl
  refine ⟨ha, hb, ?_⟩
  rw [ha, hb]
  norm_num

/-- C7 as amended: out-of-bounds samples of the rotated object are
filled with the constant background — 0 under the default `black` mode
of the repository's rotation primitive, matching the zero fill of the
`tf.contrib.image.rotate` call actually used by `rotate_and_project` —
not by mirroring at the boundary. -/
theorem rotation_out_of_bounds_black_fill (s0 s1 : ℕ) (image : ℤ → ℤ → ℝ)
    (angle : ℝ) (i j : ℕ)
    (h : ¬ (0 ≤ rotSource1 s0 s1 angle i j ∧
        rotSource1 s0 s1 angle i j < (s0 : ℤ) ∧
        0 ≤ rotSource2 s0 s1 angle i j ∧
        rotSource2 s0 s1 angle i j < (s1 : ℤ))) :
    rotate_image_tensor s0 s1 image angle RotMode.black i j = 0 := by
  rw [rotate_image_tensor_black, if_neg h]

/-- Witness for the amended C7: output pixel (0,1) of a π/2 rotation of
a 2×2 image samples source (1,2), out of bounds, and receives 0. -/
theorem rotation_out_of_bounds_black_fill_witness :
    rotate_image_tensor 2 2 (fun _ _ => 5) (Real.pi / 2) RotMode.black 0 1
      = 0 := by
  apply rotation_out_of_bounds_black_fill
  have h1 : rotSource1 2 2 (Real.pi / 2) 0 1 = 1 := by
    rw [rotSource1]
    norm_num [Real.cos_pi_div_two, Real.sin_pi_div_two]
  have h2 : rotSource2 2 2 (Real.pi / 2) 0 1 = 2 := by
    rw [rotSource2]
    norm_num [Real.cos_pi_div_two, Real.sin_pi_div_two]
  rw [h1, h2]
  norm_num

end TfRecon
